import Mathlib

/-!
# Verification of the InfraCalc road-safety cost estimator

This file gives a shallow embedding, in Lean 4, of the computational core of
the InfraCalc repository (`app.py`, `main.py`): the chainage parser, the GPS
interpolation helper, the quantity-extraction logic, the cost-aggregation
loops, and the batch orchestration, and proves or refutes the frozen claims
about them.

Modelling conventions:
* Python strings are `List Char` (document text) or `String` (keys, names);
  only ASCII behaviour of `str.lower`, `\d`, `\s` and `int`/`float` parsing
  is modelled, which covers every input the program's call sites can produce.
* Python `float` arithmetic is modelled by exact rationals (`ℚ`); IEEE-754
  rounding is out of scope of this development.
* A Python exception escaping to the caller is modelled by `Except Unit`
  (`.error ()`); code wrapped in `try/except` is modelled by the handler's
  value directly.
* `re.search` with the concrete patterns used by the program is modelled by
  hand-written leftmost scanners.  For each pattern appearing in the source
  (`(\d+)\s*m`, `(\d+)\+(\d+)\s+to\s+(\d+)\s*...`, `area\s*([\d\.]+)\s*sqm`,
  `([\d\.]+)\s*mm\s*depth`) the character following each greedy repetition
  can never be consumed by that repetition, so greedy maximal munch with a
  left-to-right scan over start positions is exactly Python's
  leftmost-greedy match semantics for these patterns.
-/

/-- ASCII decimal digit, Python's `\d` restricted to ASCII. -/
def isDigitCh (c : Char) : Bool := '0' ≤ c && c ≤ '9'

/-- ASCII whitespace, Python's `\s` restricted to ASCII:
space, tab, newline, carriage return, vertical tab, form feed. -/
def isSpaceCh (c : Char) : Bool :=
  c = ' ' || c = '\t' || c = '\n' || c = '\r' || c = '\x0b' || c = '\x0c'

/-- Character of the regex class `[\d\.]` (digit or dot). -/
def isNumDotCh (c : Char) : Bool := isDigitCh c || c = '.'

/-- `spanP p l` splits `l` into its longest prefix of characters satisfying
`p` and the rest (greedy maximal munch of a repeated character class). -/
def spanP (p : Char → Bool) : List Char → List Char × List Char
  | [] => ([], [])
  | c :: rest =>
    if p c then
      let s := spanP p rest
      (c :: s.1, s.2)
    else ([], c :: rest)

/-- Numeric value of an ASCII digit character. -/
def digitVal (c : Char) : ℕ := c.toNat - 48

/-- Value of a list of ASCII digit characters read in base 10
(the value `int`/`float` give to a digit run). -/
def digitsToNat (l : List Char) : ℕ :=
  l.foldl (fun acc c => acc * 10 + digitVal c) 0

/-- Tail of Python `int(str)` digit parsing: after a first digit of value
`acc`, consume further digits, allowing a single underscore between two
digits (Python's numeric-literal grouping rule). -/
def pyIntDigitsAux : List Char → ℕ → Option ℕ
  | [], acc => some acc
  | c :: rest, acc =>
    if isDigitCh c then pyIntDigitsAux rest (acc * 10 + digitVal c)
    else if c = '_' then
      match rest with
      | [] => none
      | d :: rest2 =>
        if isDigitCh d then pyIntDigitsAux rest2 (acc * 10 + digitVal d)
        else none
    else none

/-- Digit part of Python `int(str)`: a nonempty run of ASCII digits with
single underscores allowed between digits. -/
def pyIntDigits : List Char → Option ℕ
  | [] => none
  | c :: rest => if isDigitCh c then pyIntDigitsAux rest (digitVal c) else none

/-- Strip leading and trailing ASCII whitespace (Python `int` ignores
surrounding whitespace). -/
def stripWs (l : List Char) : List Char :=
  ((l.dropWhile isSpaceCh).reverse.dropWhile isSpaceCh).reverse

/-- Model of Python `int(s)` on a string, restricted to ASCII: optional
surrounding whitespace, an optional sign, then digits (with underscore
grouping); `none` models a raised `ValueError`. -/
def pyInt (l : List Char) : Option ℤ :=
  match stripWs l with
  | '+' :: rest => (pyIntDigits rest).map (fun n => (n : ℤ))
  | '-' :: rest => (pyIntDigits rest).map (fun n => -(n : ℤ))
  | t => (pyIntDigits t).map (fun n => (n : ℤ))

/-- Model of Python `str.split('+')`: splits on every `'+'`, keeping empty
parts; the result is always nonempty. -/
def splitOnPlus : List Char → List (List Char)
  | [] => [[]]
  | c :: rest =>
    let parts := splitOnPlus rest
    if c = '+' then [] :: parts
    else
      match parts with
      | [] => [[c]]
      | p :: ps => (c :: p) :: ps

/-- Embedding of `parse_chainage` (`app.py` lines 36-39):
split the input on `'+'`; with exactly two parts return
`int(parts[0]) * 1000 + int(parts[1])`, otherwise return `int(parts[0])`;
any `ValueError` from `int` is caught by the bare `except` and turned
into `None`. -/
def parse_chainage (l : List Char) : Option ℤ :=
  let parts := splitOnPlus l
  match parts with
  | [a, b] =>
    match pyInt a, pyInt b with
    | some x, some y => some (x * 1000 + y)
    | _, _ => none
  | a :: _ => pyInt a
  | [] => none

/-- Embedding of `interpolate_gps` (`app.py` lines 40-48) over exact
rationals.  A zero-length range makes the Python division raise
`ZeroDivisionError`, which the bare `except` turns into `start_gps`;
otherwise the fraction is computed, clamped below by `0` and then above
by `1`, and both coordinates are interpolated. -/
def interpolate_gps (chainage_m start_ch end_ch : ℚ)
    (start_gps end_gps : ℚ × ℚ) : ℚ × ℚ :=
  if end_ch - start_ch = 0 then start_gps
  else
    let fraction0 := (chainage_m - start_ch) / (end_ch - start_ch)
    let fraction1 := if fraction0 < 0 then 0 else fraction0
    let fraction := if fraction1 > 1 then 1 else fraction1
    (start_gps.1 + (end_gps.1 - start_gps.1) * fraction,
     start_gps.2 + (end_gps.2 - start_gps.2) * fraction)

/-- Digit structure of the body of Python `float(s)`: an integer digit run,
optionally followed by a dot and a further digit run (at least one digit in
total).  Returns `(integer part value, fractional part value, fractional
digit count)`; `none` models a raised `ValueError`.  Exponents, `inf`/`nan`,
surrounding whitespace and underscore grouping are omitted: every call site
feeds `float` a match of the regex class `[\d\.]+`, which cannot contain
them. -/
def pyFloatParts (l : List Char) : Option (ℕ × ℕ × ℕ) :=
  let s := spanP isDigitCh l
  match s.2 with
  | [] => if s.1 = [] then none else some (digitsToNat s.1, 0, 0)
  | '.' :: r2 =>
    let f := spanP isDigitCh r2
    if f.2 ≠ [] then none
    else if s.1 = [] && f.1 = [] then none
    else some (digitsToNat s.1, digitsToNat f.1, f.1.length)
  | _ => none

/-- Rational value of a decimal body parsed by `pyFloatParts`. -/
def pyFloatBody (l : List Char) : Option ℚ :=
  (pyFloatParts l).map (fun p => (p.1 : ℚ) + (p.2.1 : ℚ) / ((10 : ℚ) ^ p.2.2))

/-- Model of Python `float(s)`: an optional leading sign, then a decimal
body; `none` models a raised `ValueError`. -/
def pyFloat (l : List Char) : Option ℚ :=
  match l with
  | '+' :: r => pyFloatBody r
  | '-' :: r => (pyFloatBody r).map (fun q => -q)
  | _ => pyFloatBody l

/-- Try to match the regex `(\d+)\s*m` at the head of `l`; returns the digit
group.  Maximal munch is exact here: `'m'` is neither a digit nor
whitespace. -/
def matchNumMAt (l : List Char) : Option (List Char) :=
  let d := spanP isDigitCh l
  if d.1 = [] then none
  else
    let r := spanP isSpaceCh d.2
    match r.2 with
    | 'm' :: _ => some d.1
    | _ => none

/-- Leftmost search for `(\d+)\s*m` (`re.search` in the longitudinal
markings branch). -/
def searchNumM : List Char → Option (List Char)
  | [] => none
  | c :: rest =>
    match matchNumMAt (c :: rest) with
    | some g => some g
    | none => searchNumM rest

/-- Try to match `(\d+)\+(\d+)\s+to\s+(\d+)\+(\d+)` at the head of `l`;
returns the four numeric groups.  The program searches lowercased text, so
the literal `to` is matched in lowercase. -/
def matchChainageAt (l : List Char) : Option (ℕ × ℕ × ℕ × ℕ) :=
  let d1 := spanP isDigitCh l
  if d1.1 = [] then none
  else
    match d1.2 with
    | '+' :: r2 =>
      let d2 := spanP isDigitCh r2
      if d2.1 = [] then none
      else
        let s1 := spanP isSpaceCh d2.2
        if s1.1 = [] then none
        else
          match s1.2 with
          | 't' :: 'o' :: r5 =>
            let s2 := spanP isSpaceCh r5
            if s2.1 = [] then none
            else
              let d3 := spanP isDigitCh s2.2
              if d3.1 = [] then none
              else
                match d3.2 with
                | '+' :: r8 =>
                  let d4 := spanP isDigitCh r8
                  if d4.1 = [] then none
                  else some (digitsToNat d1.1, digitsToNat d2.1,
                             digitsToNat d3.1, digitsToNat d4.1)
                | _ => none
          | _ => none
    | _ => none

/-- Leftmost search for the chainage-range pattern
`(\d+)\+(\d+)\s+to\s+(\d+)\+(\d+)` (road studs branch). -/
def searchChainageRange : List Char → Option (ℕ × ℕ × ℕ × ℕ)
  | [] => none
  | c :: rest =>
    match matchChainageAt (c :: rest) with
    | some g => some g
    | none => searchChainageRange rest

/-- Try to match `area\s*([\d\.]+)\s*sqm` at the head of `l`; returns the
`[\d\.]+` group as the raw matched characters. -/
def matchAreaAt (l : List Char) : Option (List Char) :=
  match l with
  | 'a' :: 'r' :: 'e' :: 'a' :: r1 =>
    let r2 := (spanP isSpaceCh r1).2
    let g := spanP isNumDotCh r2
    if g.1 = [] then none
    else
      match (spanP isSpaceCh g.2).2 with
      | 's' :: 'q' :: 'm' :: _ => some g.1
      | _ => none
  | _ => none

/-- Leftmost search for `area\s*([\d\.]+)\s*sqm` (pothole area pattern). -/
def searchArea : List Char → Option (List Char)
  | [] => none
  | c :: rest =>
    match matchAreaAt (c :: rest) with
    | some g => some g
    | none => searchArea rest

/-- Try to match `([\d\.]+)\s*mm\s*depth` at the head of `l`; returns the
`[\d\.]+` group as the raw matched characters. -/
def matchDepthAt (l : List Char) : Option (List Char) :=
  let g := spanP isNumDotCh l
  if g.1 = [] then none
  else
    match (spanP isSpaceCh g.2).2 with
    | 'm' :: 'm' :: r3 =>
      match (spanP isSpaceCh r3).2 with
      | 'd' :: 'e' :: 'p' :: 't' :: 'h' :: _ => some g.1
      | _ => none
    | _ => none

/-- Leftmost search for `([\d\.]+)\s*mm\s*depth` (pothole depth pattern). -/
def searchDepth : List Char → Option (List Char)
  | [] => none
  | c :: rest =>
    match matchDepthAt (c :: rest) with
    | some g => some g
    | none => searchDepth rest

/-- `startsWith pat l`: does `l` begin with `pat`? -/
def startsWith : List Char → List Char → Bool
  | [], _ => true
  | _ :: _, [] => false
  | p :: ps, t :: ts => p = t && startsWith ps ts

/-- Model of Python's substring test `pat in text`. -/
def isSubstr (pat : List Char) : List Char → Bool
  | [] => startsWith pat []
  | c :: rest => startsWith pat (c :: rest) || isSubstr pat rest

/-- Model of Python `text.count(pat)` for nonempty `pat`: number of
non-overlapping occurrences, scanning left to right.  The extra `ℕ`
argument is recursion fuel (the scan consumes at least one character per
step, so fuel `text.length` always suffices); it makes the recursion
structural so that the function reduces inside the kernel. -/
def countOccsAux (pat : List Char) : ℕ → List Char → ℕ
  | 0, _ => 0
  | _ + 1, [] => 0
  | fuel + 1, c :: rest =>
    if startsWith pat (c :: rest) then
      countOccsAux pat fuel (rest.drop (pat.length - 1)) + 1
    else countOccsAux pat fuel rest

/-- Model of Python `text.count(pat)` (an empty pattern counts
`len(text) + 1` occurrences, as in Python). -/
def countOccs (pat text : List Char) : ℕ :=
  if pat = [] then text.length + 1 else countOccsAux pat text.length text

/-- ASCII case folding of one character (`str.lower` restricted to
ASCII). -/
def lowerCh (c : Char) : Char :=
  if 'A' ≤ c && c ≤ 'Z' then Char.ofNat (c.toNat + 32) else c

/-- Model of Python `s.lower()` restricted to ASCII. -/
def pyLower (s : String) : String := String.mk (s.data.map lowerCh)

/-- One material line of a specification entry: the objects
`{"name": ..., "quantity": ..., "unit": ...}` of `database.json`. -/
structure MaterialRequirement where
  name : String
  quantity : ℚ
  unit : String
deriving DecidableEq

/-- One entry of the specification database.  Python stores a JSON object
whose optional keys `materials_per_item`, `materials_per_meter`,
`materials_per_cubic_meter`, `materials_per_sqm_20mm` are modelled as
`Option` fields (`some` = key present, mirroring Python's `key in specs`
tests). -/
structure Spec where
  source_clause : String
  materials_per_item : Option (List MaterialRequirement)
  materials_per_meter : Option (List MaterialRequirement)
  materials_per_cubic_meter : Option (List MaterialRequirement)
  materials_per_sqm_20mm : Option (List MaterialRequirement)
deriving DecidableEq

/-- The spec's populated category list under the data-model invariant
"exactly one category is populated per spec": `some L` when exactly one of
the four material-list keys is present (with list `L`), `none` otherwise.
This definition follows the specification document's data model and is only
used to state claims, never inside the embedded program. -/
def populatedCategory (s : Spec) : Option (List MaterialRequirement) :=
  match s.materials_per_item, s.materials_per_meter,
        s.materials_per_cubic_meter, s.materials_per_sqm_20mm with
  | some l, none, none, none => some l
  | none, some l, none, none => some l
  | none, none, some l, none => some l
  | none, none, none, some l => some l
  | _, _, _, _ => none

/-- Material list selected by the cost step of `app.py` (lines 182-185):
an `if/elif` chain over key presence, in the order per-item, per-meter,
per-cubic-meter, per-sqm-at-20mm, defaulting to the empty list. -/
def materials_list (s : Spec) : List MaterialRequirement :=
  match s.materials_per_item with
  | some l => l
  | none =>
    match s.materials_per_meter with
    | some l => l
    | none =>
      match s.materials_per_cubic_meter with
      | some l => l
      | none => s.materials_per_sqm_20mm.getD []

/-- Material list built by the cost step of `main.py` (lines 136-138): the
concatenation `specs.get("materials_per_item", []) +
specs.get("materials_per_meter", []) + specs.get("materials_per_cubic_meter", [])`.
Note that `materials_per_sqm_20mm` is not included. -/
def mainMaterialsList (s : Spec) : List MaterialRequirement :=
  s.materials_per_item.getD [] ++ s.materials_per_meter.getD [] ++
    s.materials_per_cubic_meter.getD []

/-- One line of the per-material cost breakdown: either a priced line
`(name, qty_needed, unit_price, line_cost)` or a line whose material is
absent from the price table (printed `@ PRICE NOT FOUND` by the program). -/
inductive LineItem where
  | priced (name : String) (qty_needed unit_price line_cost : ℚ)
  | missing (name : String) (qty_needed : ℚ)
deriving DecidableEq

/-- Model of the Python dict lookup `price_table[name]` /
`name in price_table` as first-match lookup in an association list (dict
keys are unique, so first-match agrees with the dict). -/
def priceLookup (prices : List (String × ℚ)) (name : String) : Option ℚ :=
  match prices with
  | [] => none
  | (n, p) :: rest => if n = name then some p else priceLookup rest name

/-- `mat_qty_needed` as computed by the cost loop of `app.py`
(lines 191-194): road studs in item mode multiply
`quantity_found * mat_qty_per_unit`, every other line multiplies
`mat_qty_per_unit * quantity_found`. -/
def line_qty_needed (key unit_type : String) (quantity_found mat_qty : ℚ) : ℚ :=
  if pyLower key = "road studs" ∧ unit_type = "item" then
    quantity_found * mat_qty
  else mat_qty * quantity_found

/-- Cost-aggregation step of `app.py` (lines 180-202): walk the selected
material list, and for each material found in the price table add
`qty_needed * unit_price` to the running item total and record a priced
line, otherwise record a `PRICE NOT FOUND` line.  Returns
`(item_total_cost, breakdown lines)`. -/
def compute_cost_app (key unit_type : String) (spec : Spec)
    (quantity_found : ℚ) (prices : List (String × ℚ)) : ℚ × List LineItem :=
  (materials_list spec).foldl
    (fun st m =>
      let qn := line_qty_needed key unit_type quantity_found m.quantity
      match priceLookup prices m.name with
      | some p => (st.1 + qn * p, st.2 ++ [LineItem.priced m.name qn p (qn * p)])
      | none => (st.1, st.2 ++ [LineItem.missing m.name qn]))
    ((0 : ℚ), ([] : List LineItem))

/-- Cost-aggregation step of `main.py` (lines 132-160): same walk, but over
`mainMaterialsList` and with the uniform multiplication
`mat_qty_per_unit * quantity_found` on every line. -/
def compute_cost_main (spec : Spec) (quantity_found : ℚ)
    (prices : List (String × ℚ)) : ℚ × List LineItem :=
  (mainMaterialsList spec).foldl
    (fun st m =>
      let qn := m.quantity * quantity_found
      match priceLookup prices m.name with
      | some p => (st.1 + qn * p, st.2 ++ [LineItem.priced m.name qn p (qn * p)])
      | none => (st.1, st.2 ++ [LineItem.missing m.name qn]))
    ((0 : ℚ), ([] : List LineItem))

/-- Road-stud quantity from a matched chainage range (`app.py`
lines 149-151, `main.py` lines 103-107):
`length_m = abs((end_km*1000 + end_m) - (start_km*1000 + start_m))`,
`studs_per_edge = math.ceil(length_m / 9.0)`, and
`quantity = studs_per_edge * 2`. -/
def studQty (sk sm ek em : ℕ) : ℤ :=
  ⌈(((((ek : ℤ) * 1000 + em) - ((sk : ℤ) * 1000 + sm)).natAbs : ℚ) / 9)⌉ * 2

/-- Quantity-extraction step of `app.py` (lines 138-164) for one
intervention, on the lowercased document text.  `Except Unit` models an
exception escaping this block: `.error ()` is the unhandled `ValueError`
raised by `float()` on a malformed numeric group; every other path returns
`(quantity_found, unit_type)`.  Initial defaults are quantity `0` and unit
`"item"`. -/
def extract_quantity_app (key : String) (spec : Spec) (text : List Char) :
    Except Unit (ℚ × String) :=
  match spec.materials_per_meter with
  | some _ =>
    if pyLower key = "longitudinal markings" then
      match searchNumM text with
      | some g => .ok ((digitsToNat g : ℚ), "meter")
      | none => .ok (1, "meter")
    else if pyLower key = "streetlights" then .ok (1000, "meter")
    else if pyLower key = "road studs" then
      match searchChainageRange text with
      | some (sk, sm, ek, em) => .ok ((studQty sk sm ek em : ℚ), "item")
      | none => .ok (1, "item")
    else .ok (1, "meter")
  | none =>
    match spec.materials_per_item with
    | some _ =>
      let c := countOccs (pyLower key).toList text
      .ok (((if c = 0 then 1 else c : ℕ) : ℚ), "item")
    | none =>
      match spec.materials_per_cubic_meter with
      | some _ =>
        match searchArea text, searchDepth text with
        | some ga, some gd =>
          if pyLower key = "pothole" then
            match pyFloat ga with
            | none => .error ()
            | some a =>
              match pyFloat gd with
              | none => .error ()
              | some d => .ok (a * (d / 1000), "m^3")
          else .ok (0, "m^3")
        | _, _ => .ok (0, "m^3")
      | none =>
        match spec.materials_per_sqm_20mm with
        | some _ =>
          match searchArea text with
          | some ga =>
            if pyLower key = "pothole" then
              match pyFloat ga with
              | none => .error ()
              | some a => .ok (a, "sqm")
            else .ok (1, "sqm")
          | none => .ok (1, "sqm")
        | none => .ok (0, "item")

/-- Road-studs spec adjustment of `main.py` (lines 110-125).  The code runs
`current_specs = specs.copy()` — a **shallow** `dict.copy()`, so the
material list object and the material dicts inside it stay shared with the
entry of `spec_database` — then
`current_specs["materials_per_item"] = current_specs.pop("materials_per_meter")`
(re-keying only the copy's dict) and
`current_specs["materials_per_item"][0]["quantity"] = 1` (mutating the
first shared material dict in place).  The result is
`some (local spec used by the cost loop, value now held by the shared
spec_database entry)`; `none` models the `IndexError` raised by `[0]` on an
empty material list.  Specs without a `materials_per_meter` key are left
untouched. -/
def mainRoadStudsNormalize (s : Spec) : Option (Spec × Spec) :=
  match s.materials_per_meter with
  | none => some (s, s)
  | some [] => none
  | some (m :: rest) =>
    some
      ({ s with materials_per_meter := none,
                materials_per_item := some ({ m with quantity := 1 } :: rest) },
       { s with materials_per_meter := some ({ m with quantity := 1 } :: rest) })

/-- One intervention of the PDF-tab pipeline of `app.py`: quantity
extraction (lines 138-164) followed by cost aggregation (lines 180-202),
with the extractor's `(quantity_found, unit_type)` fed into the cost loop.
No spec normalization happens between the two steps in `app.py`. -/
def appInterventionRun (key : String) (spec : Spec) (text : List Char)
    (prices : List (String × ℚ)) : Except Unit (ℚ × List LineItem) :=
  match extract_quantity_app key spec text with
  | .error u => .error u
  | .ok qu => .ok (compute_cost_app key qu.2 spec qu.1 prices)

/-- One row of `results_list` in `app.py` (line 207).  The program stores
the quantity as the display string `f"{quantity_found:.2f}"`; the model
keeps the underlying number.  `material_cost` is the raw `item_total_cost`
number, exactly as in the program. -/
structure ResultItem where
  key : String
  quantity : ℚ
  unit : String
  source_clause : String
  material_cost : ℚ
deriving DecidableEq

/-- One iteration of the batch loop of `app.py` (lines 134-212) acting on
the running state `(total_project_cost, results_list)`: skip interventions
whose lowercased key is not a substring of the lowercased text; otherwise
extract a quantity, aggregate costs, add `item_total_cost` to the running
total and append a `ResultItem` when `item_total_cost > 0`.  The map
annotation (lines 170-177 and 208-212) only feeds the map widget and is
omitted.  An exception from the extractor aborts the whole run. -/
def batchStepApp (prices : List (String × ℚ)) (text : List Char)
    (st : ℚ × List ResultItem) (e : String × Spec) :
    Except Unit (ℚ × List ResultItem) :=
  if isSubstr (pyLower e.1).toList text then
    match extract_quantity_app e.1 e.2 text with
    | .error u => .error u
    | .ok qu =>
      let itot := (compute_cost_app e.1 qu.2 e.2 qu.1 prices).1
      .ok (st.1 + itot,
           st.2 ++ (if 0 < itot then
             [⟨e.1, qu.1, qu.2, e.2.source_clause, itot⟩] else []))
  else .ok st

/-- Batch loop of `app.py` from a given state, over the remaining
specification-database entries (dict iteration order). -/
def batchRunAppFrom (prices : List (String × ℚ)) (text : List Char) :
    ℚ × List ResultItem → List (String × Spec) →
    Except Unit (ℚ × List ResultItem)
  | st, [] => .ok st
  | st, e :: rest =>
    match batchStepApp prices text st e with
    | .error u => .error u
    | .ok st2 => batchRunAppFrom prices text st2 rest

/-- Batch mode of `app.py`: run every database entry against the lowercased
document text, starting from total `0` and an empty results list; returns
`(total_project_cost, results_list)`. -/
def batchRunApp (db : List (String × Spec)) (text : List Char)
    (prices : List (String × ℚ)) : Except Unit (ℚ × List ResultItem) :=
  batchRunAppFrom prices text (0, []) db

/-- The individual `item_total_cost` values of the matched interventions of
a batch run, in database order (the values the claim about the grand total
sums). -/
def matchedItemTotals (prices : List (String × ℚ)) (text : List Char) :
    List (String × Spec) → Except Unit (List ℚ)
  | [] => .ok []
  | e :: rest =>
    if isSubstr (pyLower e.1).toList text then
      match extract_quantity_app e.1 e.2 text with
      | .error u => .error u
      | .ok qu =>
        match matchedItemTotals prices text rest with
        | .error u => .error u
        | .ok l => .ok ((compute_cost_app e.1 qu.2 e.2 qu.1 prices).1 :: l)
    else matchedItemTotals prices text rest

/-- Contribution of one material line to `item_total_cost` in the `app.py`
cost loop: `qty_needed * unit_price` when the material is priced, `0` when
its price is missing. -/
def lineContribution (key unit_type : String) (q : ℚ)
    (prices : List (String × ℚ)) (m : MaterialRequirement) : ℚ :=
  match priceLookup prices m.name with
  | some p => line_qty_needed key unit_type q m.quantity * p
  | none => 0

/-- Breakdown line produced for one material by the `app.py` cost loop. -/
def lineOfMaterial (key unit_type : String) (q : ℚ)
    (prices : List (String × ℚ)) (m : MaterialRequirement) : LineItem :=
  match priceLookup prices m.name with
  | some p =>
    LineItem.priced m.name (line_qty_needed key unit_type q m.quantity) p
      (line_qty_needed key unit_type q m.quantity * p)
  | none => LineItem.missing m.name (line_qty_needed key unit_type q m.quantity)

/-- The claim's uniform per-line contribution:
`requirement.quantity * quantity * unit_price` when priced, `0` when the
price is missing.  This definition follows the specification document's
wording of the aggregation rule, for comparison with the embedded code. -/
def uniformContribution (q : ℚ) (prices : List (String × ℚ))
    (m : MaterialRequirement) : ℚ :=
  match priceLookup prices m.name with
  | some p => m.quantity * q * p
  | none => 0

/-- Contribution of one material line to `item_total_cost` in the `main.py`
cost loop (uniform multiplication `mat_qty_per_unit * quantity_found`). -/
def mainLineContribution (q : ℚ) (prices : List (String × ℚ))
    (m : MaterialRequirement) : ℚ :=
  match priceLookup prices m.name with
  | some p => m.quantity * q * p
  | none => 0

/-- Breakdown line produced for one material by the `main.py` cost loop. -/
def mainLineOfMaterial (q : ℚ) (prices : List (String × ℚ))
    (m : MaterialRequirement) : LineItem :=
  match priceLookup prices m.name with
  | some p => LineItem.priced m.name (m.quantity * q) p (m.quantity * q * p)
  | none => LineItem.missing m.name (m.quantity * q)

/-- Concrete fixture: a road-studs specification entry whose per-meter list
requires 2 studs per unit. -/
def roadStudsSpec : Spec :=
  ⟨"IRC 35", none, some [⟨"stud", 2, "pc"⟩], none, none⟩

/-- The local spec the `main.py` cost loop uses for `roadStudsSpec` after
the road-studs adjustment. -/
def roadStudsSpecLocal : Spec :=
  ⟨"IRC 35", some [⟨"stud", 1, "pc"⟩], none, none, none⟩

/-- The value held by the shared `spec_database` entry for `roadStudsSpec`
after the `main.py` road-studs adjustment has run. -/
def roadStudsSpecShared : Spec :=
  ⟨"IRC 35", none, some [⟨"stud", 1, "pc"⟩], none, none⟩


theorem costFold_eq (key unit_type : String) (q : ℚ)
    (prices : List (String × ℚ)) (l : List MaterialRequirement) :
    ∀ (t0 : ℚ) (ls0 : List LineItem),
      l.foldl
        (fun st m =>
          let qn := line_qty_needed key unit_type q m.quantity
          match priceLookup prices m.name with
          | some p => (st.1 + qn * p, st.2 ++ [LineItem.priced m.name qn p (qn * p)])
          | none => (st.1, st.2 ++ [LineItem.missing m.name qn]))
        (t0, ls0) =
      (t0 + (l.map (lineContribution key unit_type q prices)).sum,
       ls0 ++ l.map (lineOfMaterial key unit_type q prices)) := by
  induction l with
  | nil => intro t0 ls0; simp
  | cons m rest ih =>
    intro t0 ls0
    simp only [List.foldl_cons, List.map_cons, List.sum_cons]
    cases h : priceLookup prices m.name with
    | some p => simp [h, ih, lineContribution, lineOfMaterial, add_assoc]
    | none => simp [h, ih, lineContribution, lineOfMaterial]

theorem compute_cost_app_eq (key unit_type : String) (spec : Spec) (q : ℚ)
    (prices : List (String × ℚ)) :
    compute_cost_app key unit_type spec q prices =
      (((materials_list spec).map (lineContribution key unit_type q prices)).sum,
       (materials_list spec).map (lineOfMaterial key unit_type q prices)) := by
  unfold compute_cost_app
  rw [costFold_eq]
  simp

theorem mainCostFold_eq (q : ℚ) (prices : List (String × ℚ))
    (l : List MaterialRequirement) :
    ∀ (t0 : ℚ) (ls0 : List LineItem),
      l.foldl
        (fun st m =>
          let qn := m.quantity * q
          match priceLookup prices m.name with
          | some p => (st.1 + qn * p, st.2 ++ [LineItem.priced m.name qn p (qn * p)])
          | none => (st.1, st.2 ++ [LineItem.missing m.name qn]))
        (t0, ls0) =
      (t0 + (l.map (mainLineContribution q prices)).sum,
       ls0 ++ l.map (mainLineOfMaterial q prices)) := by
  induction l with
  | nil => intro t0 ls0; simp
  | cons m rest ih =>
    intro t0 ls0
    simp only [List.foldl_cons, List.map_cons, List.sum_cons]
    cases h : priceLookup prices m.name with
    | some p =>
      simp only [h]
      rw [ih]
      simp [mainLineContribution, mainLineOfMaterial, h, add_assoc]
    | none =>
      simp only [h]
      rw [ih]
      simp [mainLineContribution, mainLineOfMaterial, h]

theorem compute_cost_main_eq (spec : Spec) (q : ℚ)
    (prices : List (String × ℚ)) :
    compute_cost_main spec q prices =
      (((mainMaterialsList spec).map (mainLineContribution q prices)).sum,
       (mainMaterialsList spec).map (mainLineOfMaterial q prices)) := by
  unfold compute_cost_main
  rw [mainCostFold_eq]
  simp

theorem line_qty_needed_eq_mul (key unit_type : String) (q mq : ℚ) :
    line_qty_needed key unit_type q mq = mq * q := by
  unfold line_qty_needed
  split
  · exact mul_comm q mq
  · rfl

theorem lineContribution_eq_uniform (key unit_type : String) (q : ℚ)
    (prices : List (String × ℚ)) (m : MaterialRequirement) :
    lineContribution key unit_type q prices m = uniformContribution q prices m := by
  unfold lineContribution uniformContribution
  cases h : priceLookup prices m.name with
  | some p => simp [line_qty_needed_eq_mul, mul_comm, mul_assoc]
  | none => rfl

theorem materials_list_of_populated (s : Spec) (L : List MaterialRequirement)
    (h : populatedCategory s = some L) : materials_list s = L := by
  unfold populatedCategory at h
  unfold materials_list
  rcases h1 : s.materials_per_item with _ | l1 <;>
    rcases h2 : s.materials_per_meter with _ | l2 <;>
      rcases h3 : s.materials_per_cubic_meter with _ | l3 <;>
        rcases h4 : s.materials_per_sqm_20mm with _ | l4 <;>
          simp_all

theorem priceLookup_mem (prices : List (String × ℚ)) (n : String) (p : ℚ)
    (h : priceLookup prices n = some p) : ∃ pr ∈ prices, pr.2 = p := by
  induction prices with
  | nil => simp [priceLookup] at h
  | cons hd tl ih =>
    by_cases hn : hd.1 = n
    · refine ⟨hd, List.mem_cons_self hd tl, ?_⟩
      unfold priceLookup at h
      rw [if_pos hn] at h
      exact (Option.some.injEq _ _ ▸ h.symm).symm ▸ rfl
    · unfold priceLookup at h
      rw [if_neg hn] at h
      obtain ⟨pr, hpr, hv⟩ := ih h
      exact ⟨pr, List.mem_cons_of_mem hd hpr, hv⟩

theorem spanP_fst_all (p : Char → Bool) (l : List Char) :
    ∀ c ∈ (spanP p l).1, p c = true := by
  induction l with
  | nil => simp [spanP]
  | cons hd tl ih =>
    by_cases h : p hd
    · simp only [spanP, h, if_pos]
      intro c hc
      rcases List.mem_cons.1 hc with rfl | hc
      · exact h
      · exact ih c hc
    · simp [spanP, h]

theorem matchAreaAt_group (l g : List Char) (h : matchAreaAt l = some g) :
    g ≠ [] ∧ ∀ c ∈ g, isNumDotCh c = true := by
  simp only [matchAreaAt] at h
  split at h
  · split at h
    · exact absurd h (by simp)
    · split at h
      · rename_i hne _ _ _
        obtain rfl := Option.some.inj h
        exact ⟨hne, spanP_fst_all _ _⟩
      · exact absurd h (by simp)
  · exact absurd h (by simp)

theorem searchArea_group (text g : List Char) (h : searchArea text = some g) :
    g ≠ [] ∧ ∀ c ∈ g, isNumDotCh c = true := by
  induction text with
  | nil => simp [searchArea] at h
  | cons c rest ih =>
    unfold searchArea at h
    cases hm : matchAreaAt (c :: rest) with
    | some g2 =>
      rw [hm] at h
      obtain rfl := Option.some.inj h
      exact matchAreaAt_group _ _ hm
    | none =>
      rw [hm] at h
      exact ih h

theorem matchDepthAt_group (l g : List Char) (h : matchDepthAt l = some g) :
    g ≠ [] ∧ ∀ c ∈ g, isNumDotCh c = true := by
  simp only [matchDepthAt] at h
  split at h
  · exact absurd h (by simp)
  · split at h
    · split at h
      · obtain rfl := Option.some.inj h
        exact ⟨by assumption, spanP_fst_all _ _⟩
      · exact absurd h (by simp)
    · exact absurd h (by simp)

theorem searchDepth_group (text g : List Char) (h : searchDepth text = some g) :
    g ≠ [] ∧ ∀ c ∈ g, isNumDotCh c = true := by
  induction text with
  | nil => simp [searchDepth] at h
  | cons c rest ih =>
    unfold searchDepth at h
    cases hm : matchDepthAt (c :: rest) with
    | some g2 =>
      rw [hm] at h
      obtain rfl := Option.some.inj h
      exact matchDepthAt_group _ _ hm
    | none =>
      rw [hm] at h
      exact ih h

theorem pyFloatBody_nonneg (l : List Char) (v : ℚ) (h : pyFloatBody l = some v) :
    0 ≤ v := by
  unfold pyFloatBody at h
  cases hp : pyFloatParts l with
  | none => rw [hp] at h; exact absurd h (by simp)
  | some p =>
    rw [hp] at h
    obtain rfl := Option.some.inj h
    positivity

theorem pyFloat_nonneg_of_numdot (g : List Char) (v : ℚ)
    (hg : ∀ c ∈ g, isNumDotCh c = true) (h : pyFloat g = some v) : 0 ≤ v := by
  cases g with
  | nil => exact pyFloatBody_nonneg _ _ h
  | cons c rest =>
    have hc : isNumDotCh c = true := hg c (List.mem_cons_self c rest)
    have hplus : c ≠ '+' := by rintro rfl; exact absurd hc (by decide)
    have hminus : c ≠ '-' := by rintro rfl; exact absurd hc (by decide)
    unfold pyFloat at h
    revert h
    split
    · rename_i heq
      obtain ⟨h1, -⟩ := List.cons.inj heq
      exact absurd h1 hplus
    · rename_i heq
      obtain ⟨h1, -⟩ := List.cons.inj heq
      exact absurd h1 hminus
    · intro h
      exact pyFloatBody_nonneg _ _ h

theorem studQty_nonneg (sk sm ek em : ℕ) : 0 ≤ studQty sk sm ek em := by
  unfold studQty
  have h9 : (0 : ℚ) ≤ ((((ek : ℤ) * 1000 + em) - ((sk : ℤ) * 1000 + sm)).natAbs : ℚ) / 9 := by
    positivity
  have := Int.ceil_nonneg h9
  omega

theorem extract_quantity_app_nonneg (key : String) (spec : Spec)
    (text : List Char) (q : ℚ) (u : String)
    (h : extract_quantity_app key spec text = .ok (q, u)) : 0 ≤ q := by
  unfold extract_quantity_app at h
  cases hm : spec.materials_per_meter with
  | some l =>
    simp only [hm] at h
    by_cases h1 : pyLower key = "longitudinal markings"
    · simp only [h1, if_pos] at h
      cases hs : searchNumM text with
      | some g =>
        simp only [hs, Except.ok.injEq, Prod.mk.injEq] at h
        rcases h with ⟨rfl, rfl⟩
        positivity
      | none =>
        simp only [hs, Except.ok.injEq, Prod.mk.injEq] at h
        rcases h with ⟨rfl, rfl⟩
        norm_num
    · simp only [if_neg h1] at h
      by_cases h2 : pyLower key = "streetlights"
      · simp only [h2, if_pos, Except.ok.injEq, Prod.mk.injEq] at h
        rcases h with ⟨rfl, rfl⟩
        norm_num
      · simp only [if_neg h2] at h
        by_cases h3 : pyLower key = "road studs"
        · simp only [h3, if_pos] at h
          cases hs : searchChainageRange text with
          | some g =>
            obtain ⟨sk, sm, ek, em⟩ := g
            simp only [hs, Except.ok.injEq, Prod.mk.injEq] at h
            rcases h with ⟨rfl, rfl⟩
            exact_mod_cast studQty_nonneg sk sm ek em
          | none =>
            simp only [hs, Except.ok.injEq, Prod.mk.injEq] at h
            rcases h with ⟨rfl, rfl⟩
            norm_num
        · simp only [if_neg h3, Except.ok.injEq, Prod.mk.injEq] at h
          rcases h with ⟨rfl, rfl⟩
          norm_num
  | none =>
    simp only [hm] at h
    cases hi : spec.materials_per_item with
    | some l =>
      simp only [hi, Except.ok.injEq, Prod.mk.injEq] at h
      rcases h with ⟨rfl, rfl⟩
      positivity
    | none =>
      simp only [hi] at h
      cases hc : spec.materials_per_cubic_meter with
      | some l =>
        simp only [hc] at h
        cases ha : searchArea text with
        | some ga =>
          simp only [ha] at h
          cases hd : searchDepth text with
          | some gd =>
            simp only [hd] at h
            by_cases hk : pyLower key = "pothole"
            · simp only [hk, if_pos] at h
              cases hfa : pyFloat ga with
              | none =>
                simp only [hfa] at h
                exact absurd h (by simp)
              | some a =>
                simp only [hfa] at h
                cases hfd : pyFloat gd with
                | none =>
                  simp only [hfd] at h
                  exact absurd h (by simp)
                | some d =>
                  simp only [hfd, Except.ok.injEq, Prod.mk.injEq] at h
                  rcases h with ⟨rfl, rfl⟩
                  have hna : 0 ≤ a :=
                    pyFloat_nonneg_of_numdot ga a (searchArea_group text ga ha).2 hfa
                  have hnd : 0 ≤ d :=
                    pyFloat_nonneg_of_numdot gd d (searchDepth_group text gd hd).2 hfd
                  positivity
            · simp only [if_neg hk, Except.ok.injEq, Prod.mk.injEq] at h
              rcases h with ⟨rfl, rfl⟩
              norm_num
          | none =>
            simp only [hd, Except.ok.injEq, Prod.mk.injEq] at h
            rcases h with ⟨rfl, rfl⟩
            norm_num
        | none =>
          simp only [ha, Except.ok.injEq, Prod.mk.injEq] at h
          rcases h with ⟨rfl, rfl⟩
          norm_num
      | none =>
        simp only [hc] at h
        cases hq : spec.materials_per_sqm_20mm with
        | some l =>
          simp only [hq] at h
          cases ha : searchArea text with
          | some ga =>
            simp only [ha] at h
            by_cases hk : pyLower key = "pothole"
            · simp only [hk, if_pos] at h
              cases hfa : pyFloat ga with
              | none =>
                simp only [hfa] at h
                exact absurd h (by simp)
              | some a =>
                simp only [hfa, Except.ok.injEq, Prod.mk.injEq] at h
                rcases h with ⟨rfl, rfl⟩
                exact pyFloat_nonneg_of_numdot ga _ (searchArea_group text ga ha).2 hfa
            · simp only [if_neg hk, Except.ok.injEq, Prod.mk.injEq] at h
              rcases h with ⟨rfl, rfl⟩
              norm_num
          | none =>
            simp only [ha, Except.ok.injEq, Prod.mk.injEq] at h
            rcases h with ⟨rfl, rfl⟩
            norm_num
        | none =>
          simp only [hq, Except.ok.injEq, Prod.mk.injEq] at h
          rcases h with ⟨rfl, rfl⟩
          norm_num

theorem compute_cost_app_fst_nonneg (key unit_type : String) (spec : Spec)
    (q : ℚ) (prices : List (String × ℚ)) (hq : 0 ≤ q)
    (hmat : ∀ m ∈ materials_list spec, 0 ≤ m.quantity)
    (hpr : ∀ pr ∈ prices, 0 ≤ pr.2) :
    0 ≤ (compute_cost_app key unit_type spec q prices).1 := by
  rw [compute_cost_app_eq]
  apply List.sum_nonneg
  intro x hx
  obtain ⟨m, hm, rfl⟩ := List.mem_map.1 hx
  cases hp : priceLookup prices m.name with
  | none => simp [lineContribution, hp]
  | some p =>
    have hp0 : 0 ≤ p := by
      obtain ⟨pr, hpr2, rfl⟩ := priceLookup_mem prices m.name p hp
      exact hpr pr hpr2
    simp only [lineContribution, hp]
    rw [line_qty_needed_eq_mul]
    exact mul_nonneg (mul_nonneg (hmat m hm) hq) hp0

theorem batchRunAppFrom_total (prices : List (String × ℚ)) (text : List Char)
    (hpr : ∀ pr ∈ prices, 0 ≤ pr.2) :
    ∀ (db : List (String × Spec)),
      (∀ e ∈ db, ∀ m ∈ materials_list e.2, 0 ≤ m.quantity) →
      ∀ (t0 t : ℚ) (rs0 rs : List ResultItem),
        batchRunAppFrom prices text (t0, rs0) db = .ok (t, rs) →
        ∃ l, matchedItemTotals prices text db = .ok l ∧
          t = t0 + l.sum ∧
          (rs.map ResultItem.material_cost).sum
            = (rs0.map ResultItem.material_cost).sum + l.sum := by
  intro db
  induction db with
  | nil =>
    intro _ t0 t rs0 rs h
    simp only [batchRunAppFrom, Except.ok.injEq, Prod.mk.injEq] at h
    rcases h with ⟨rfl, rfl⟩
    exact ⟨[], rfl, by simp, by simp⟩
  | cons e rest ih =>
    intro hdb t0 t rs0 rs h
    simp only [batchRunAppFrom] at h
    unfold batchStepApp at h
    by_cases hsub : isSubstr (pyLower e.1).toList text = true
    · simp only [hsub, if_pos] at h
      cases hex : extract_quantity_app e.1 e.2 text with
      | error u =>
        simp only [hex] at h
        exact absurd h (by simp)
      | ok qu =>
        simp only [hex] at h
        obtain ⟨l, hl, hts, hrs⟩ :=
          ih (fun e' he' => hdb e' (List.mem_cons_of_mem e he')) _ t _ rs h
        have hq0 : 0 ≤ qu.1 :=
          extract_quantity_app_nonneg e.1 e.2 text qu.1 qu.2 hex
        have hitot : 0 ≤ (compute_cost_app e.1 qu.2 e.2 qu.1 prices).1 :=
          compute_cost_app_fst_nonneg e.1 qu.2 e.2 qu.1 prices hq0
            (hdb e (List.mem_cons_self e rest)) hpr
        refine ⟨(compute_cost_app e.1 qu.2 e.2 qu.1 prices).1 :: l, ?_, ?_, ?_⟩
        · simp only [matchedItemTotals, hsub, if_pos, hex, hl]
        · rw [hts]
          simp only [List.sum_cons]
          ring
        · rw [hrs]
          simp only [List.map_append, List.sum_append, List.sum_cons]
          by_cases hpos : 0 < (compute_cost_app e.1 qu.2 e.2 qu.1 prices).1
          · simp only [hpos, if_pos]
            simp
            ring
          · have h0 : (compute_cost_app e.1 qu.2 e.2 qu.1 prices).1 = 0 :=
              le_antisymm (not_lt.1 hpos) hitot
            simp only [hpos, if_neg, h0]
            simp
    · simp only [if_neg hsub] at h
      obtain ⟨l, hl, hts, hrs⟩ :=
        ih (fun e' he' => hdb e' (List.mem_cons_of_mem e he')) _ t _ rs h
      refine ⟨l, ?_, hts, hrs⟩
      simp only [matchedItemTotals, hsub, if_neg, hl]
      simp [hsub, hl]

theorem digit_not_space (c : Char) (h : isDigitCh c = true) : isSpaceCh c = false := by
  have h1 : c ≠ ' ' := by rintro rfl; exact absurd h (by decide)
  have h2 : c ≠ '\t' := by rintro rfl; exact absurd h (by decide)
  have h3 : c ≠ '\n' := by rintro rfl; exact absurd h (by decide)
  have h4 : c ≠ '\r' := by rintro rfl; exact absurd h (by decide)
  have h5 : c ≠ '\x0b' := by rintro rfl; exact absurd h (by decide)
  have h6 : c ≠ '\x0c' := by rintro rfl; exact absurd h (by decide)
  simp [isSpaceCh, h1, h2, h3, h4, h5, h6]

theorem dropWhile_no (p : Char → Bool) (l : List Char)
    (h : ∀ c ∈ l, p c = false) : l.dropWhile p = l := by
  cases l with
  | nil => rfl
  | cons c rest => simp [List.dropWhile_cons, h c (List.mem_cons_self c rest)]

theorem stripWs_no_space (l : List Char) (h : ∀ c ∈ l, isSpaceCh c = false) :
    stripWs l = l := by
  unfold stripWs
  rw [dropWhile_no _ _ h,
      dropWhile_no _ _ (fun c hc => h c (List.mem_reverse.1 hc)),
      List.reverse_reverse]

theorem pyIntDigitsAux_digits (l : List Char)
    (hd : ∀ c ∈ l, isDigitCh c = true) :
    ∀ acc, pyIntDigitsAux l acc =
      some (l.foldl (fun a c => a * 10 + digitVal c) acc) := by
  induction l with
  | nil => intro acc; simp [pyIntDigitsAux]
  | cons c rest ih =>
    intro acc
    have hc := hd c (List.mem_cons_self c rest)
    have hstep : pyIntDigitsAux (c :: rest) acc =
        pyIntDigitsAux rest (acc * 10 + digitVal c) := by
      rw [pyIntDigitsAux.eq_def]
      simp [hc]
    rw [hstep, List.foldl_cons]
    exact ih (fun x hx => hd x (List.mem_cons_of_mem c hx)) _

theorem pyIntDigits_all (l : List Char) (hne : l ≠ [])
    (hd : ∀ c ∈ l, isDigitCh c = true) :
    pyIntDigits l = some (digitsToNat l) := by
  cases l with
  | nil => exact absurd rfl hne
  | cons c rest =>
    have hc := hd c (List.mem_cons_self c rest)
    simp only [pyIntDigits, hc, if_pos]
    rw [pyIntDigitsAux_digits rest (fun x hx => hd x (List.mem_cons_of_mem c hx))]
    congr 1
    simp [digitsToNat]

theorem pyInt_digits (l : List Char) (hne : l ≠ [])
    (hd : ∀ c ∈ l, isDigitCh c = true) :
    pyInt l = some ((digitsToNat l : ℤ)) := by
  have hsw : stripWs l = l :=
    stripWs_no_space l (fun c hc => digit_not_space c (hd c hc))
  unfold pyInt
  rw [hsw]
  cases l with
  | nil => exact absurd rfl hne
  | cons c rest =>
    have hc := hd c (List.mem_cons_self c rest)
    have hplus : c ≠ '+' := by rintro rfl; exact absurd hc (by decide)
    have hminus : c ≠ '-' := by rintro rfl; exact absurd hc (by decide)
    split
    · rename_i heq
      obtain ⟨h1, -⟩ := List.cons.inj heq
      exact absurd h1 hplus
    · rename_i heq
      obtain ⟨h1, -⟩ := List.cons.inj heq
      exact absurd h1 hminus
    · rw [pyIntDigits_all (c :: rest) (by simp) hd]
      rfl

theorem splitOnPlus_no_plus (l : List Char) (h : ∀ c ∈ l, c ≠ '+') :
    splitOnPlus l = [l] := by
  induction l with
  | nil => rfl
  | cons c rest ih =>
    have hc : c ≠ '+' := h c (List.mem_cons_self c rest)
    simp only [splitOnPlus, ih (fun x hx => h x (List.mem_cons_of_mem c hx)),
      if_neg hc]

theorem splitOnPlus_append (a b : List Char) (ha : ∀ c ∈ a, c ≠ '+') :
    splitOnPlus (a ++ '+' :: b) = a :: splitOnPlus b := by
  induction a with
  | nil => simp [splitOnPlus]
  | cons c a2 ih =>
    have hc : c ≠ '+' := ha c (List.mem_cons_self c a2)
    simp only [List.cons_append, splitOnPlus, List.append_eq,
      ih (fun x hx => ha x (List.mem_cons_of_mem c hx)), if_neg hc]

theorem digit_not_plus (c : Char) (h : isDigitCh c = true) : c ≠ '+' := by
  rintro rfl; exact absurd h (by decide)

/-- C3 (counterexample): the claim says `parse_chainage` returns null for
every input that is neither a bare non-negative integer nor `<km>+<m>`, with
no partial parsing; but on `"5+6+7"` — which is neither — the code falls
into the `else` arm of the conditional expression and returns
`int(parts[0]) = 5`, a partial parse. -/
theorem parse_chainage_multi_plus_cex :
    parse_chainage ("5+6+7".toList) = some 5 ∧
    parse_chainage ("5+6+7".toList) ≠ none := by
  constructor
  · decide
  · decide

/-- C3 (amended): `parse_chainage` maps a bare digit string to its value and
`"<km>+<m>"` (both parts digit strings) to `km*1000 + m`, and `"abc"` to
null; but for an input whose `'+'`-split has three or more parts it does not
return null — it falls back to `int` of the part before the first `'+'`
(null only when that conversion fails). -/
theorem parse_chainage_spec :
    (∀ l : List Char, l ≠ [] → (∀ c ∈ l, isDigitCh c = true) →
        parse_chainage l = some ((digitsToNat l : ℤ))) ∧
    (∀ a b : List Char, a ≠ [] → b ≠ [] →
        (∀ c ∈ a, isDigitCh c = true) → (∀ c ∈ b, isDigitCh c = true) →
        parse_chainage (a ++ '+' :: b) =
          some ((digitsToNat a : ℤ) * 1000 + (digitsToNat b : ℤ))) ∧
    parse_chainage ("abc".toList) = none ∧
    (∀ l : List Char, 3 ≤ (splitOnPlus l).length →
        parse_chainage l = pyInt ((splitOnPlus l).headD [])) := by
  refine ⟨?_, ?_, by decide, ?_⟩
  · intro l hne hd
    unfold parse_chainage
    rw [splitOnPlus_no_plus l (fun c hc => digit_not_plus c (hd c hc))]
    show pyInt l = _
    exact pyInt_digits l hne hd
  · intro a b hna hnb hda hdb
    unfold parse_chainage
    rw [splitOnPlus_append a b (fun c hc => digit_not_plus c (hda c hc)),
        splitOnPlus_no_plus b (fun c hc => digit_not_plus c (hdb c hc))]
    show (match pyInt a, pyInt b with
          | some x, some y => some (x * 1000 + y)
          | _, _ => none) = _
    rw [pyInt_digits a hna hda, pyInt_digits b hnb hdb]
  · intro l h3
    unfold parse_chainage
    rcases hp : splitOnPlus l with _ | ⟨a, rest⟩
    · rw [hp] at h3; simp at h3
    · rcases rest with _ | ⟨b, rest2⟩
      · rw [hp] at h3; simp at h3
      · rcases rest2 with _ | ⟨c2, rest3⟩
        · rw [hp] at h3; simp at h3
        · simp [hp]

/-- C3 (witness): the amended theorem applied to the spec's own examples:
`"4100"` is a bare integer giving 4100 after evaluation, and
`"362" ++ "+" ++ "500"` gives `362*1000 + 500`. -/
theorem parse_chainage_spec_witness :
    ("4100".toList ≠ [] ∧ ∀ c ∈ "4100".toList, isDigitCh c = true) ∧
    parse_chainage ("4100".toList) = some ((digitsToNat ("4100".toList) : ℤ)) ∧
    parse_chainage ("362".toList ++ '+' :: "500".toList) =
      some ((digitsToNat ("362".toList) : ℤ) * 1000 +
            (digitsToNat ("500".toList) : ℤ)) ∧
    digitsToNat ("4100".toList) = 4100 ∧
    digitsToNat ("362".toList) = 362 ∧ digitsToNat ("500".toList) = 500 :=
  ⟨⟨by decide, by decide⟩,
   parse_chainage_spec.1 _ (by decide) (by decide),
   parse_chainage_spec.2.1 _ _ (by decide) (by decide) (by decide) (by decide),
   by decide, by decide, by decide⟩

/-- C10: with an oriented range (`range_start < range_end`),
`interpolate_position` at `offset = range_start` returns `start_coord`
exactly, at `offset ≥ range_end` returns `end_coord` exactly, at
`offset < range_start` clamps to `start_coord`; and on a degenerate range
(`range_end = range_start`, where the Python division raises
`ZeroDivisionError` and the bare `except` fires) it returns `start_coord`. -/
theorem interpolate_gps_spec (c s e : ℚ) (sg eg : ℚ × ℚ) (h : s < e) :
    interpolate_gps s s e sg eg = sg ∧
    (e ≤ c → interpolate_gps c s e sg eg = eg) ∧
    (c < s → interpolate_gps c s e sg eg = sg) ∧
    interpolate_gps c s s sg eg = sg := by
  have hne : e - s ≠ 0 := sub_ne_zero.2 h.ne'
  have hpos : (0 : ℚ) < e - s := by linarith
  refine ⟨?_, ?_, ?_, ?_⟩
  · simp only [interpolate_gps]
    rw [if_neg hne]
    have h0 : (s - s) / (e - s) = 0 := by rw [sub_self, zero_div]
    rw [h0]
    norm_num
  · intro hc
    simp only [interpolate_gps]
    rw [if_neg hne]
    have h1 : 1 ≤ (c - s) / (e - s) := by
      rw [le_div_iff₀ hpos]; linarith
    have hnotlt : ¬((c - s) / (e - s) < 0) := by linarith
    rw [if_neg hnotlt]
    by_cases hgt : (c - s) / (e - s) > 1
    · rw [if_pos hgt, Prod.ext_iff]
      constructor <;> simp
    · rw [if_neg hgt]
      have heq1 : (c - s) / (e - s) = 1 := le_antisymm (not_lt.1 hgt) h1
      rw [heq1, Prod.ext_iff]
      constructor <;> simp
  · intro hc
    simp only [interpolate_gps]
    rw [if_neg hne]
    have hlt : (c - s) / (e - s) < 0 :=
      div_neg_of_neg_of_pos (by linarith) hpos
    rw [if_pos hlt]
    norm_num
  · simp [interpolate_gps]

/-- C10 (witness): the theorem instantiated on the range 2..5 with
coordinates (1,2) and (3,4), every hypothesis discharged numerically. -/
theorem interpolate_gps_spec_witness :
    (2 : ℚ) < 5 ∧
    interpolate_gps 2 2 5 (1, 2) (3, 4) = (1, 2) ∧
    ((5 : ℚ) ≤ 7 → interpolate_gps 7 2 5 (1, 2) (3, 4) = (3, 4)) ∧
    ((1 : ℚ) < 2 → interpolate_gps 1 2 5 (1, 2) (3, 4) = (1, 2)) ∧
    interpolate_gps 7 2 2 (1, 2) (3, 4) = (1, 2) := by
  have h := interpolate_gps_spec 7 2 5 (1, 2) (3, 4) (by norm_num)
  have h2 := interpolate_gps_spec 1 2 5 (1, 2) (3, 4) (by norm_num)
  exact ⟨by norm_num, h.1, h.2.1, h2.2.2.1, h.2.2.2⟩

/-- C1 (counterexample): the claim's aggregation equation fails for the
`main.py` cost loop on a spec whose populated category is
per-square-meter-at-20mm: the loop concatenates only the per-item,
per-meter and per-cubic-meter lists, so the populated list is ignored and
`item_total` is 0 where the claim demands 10. -/
theorem main_cost_omits_sqm_cex :
    populatedCategory ⟨"IRC SP 55", none, none, none, some [⟨"paint", 2, "kg"⟩]⟩ =
      some [⟨"paint", 2, "kg"⟩] ∧
    (compute_cost_main ⟨"IRC SP 55", none, none, none, some [⟨"paint", 2, "kg"⟩]⟩
        1 [("paint", 5)]).1 = 0 ∧
    (([⟨"paint", 2, "kg"⟩] : List MaterialRequirement).map
        (uniformContribution 1 [("paint", 5)])).sum = 10 ∧
    (0 : ℚ) ≠ 10 := by
  refine ⟨rfl, rfl, ?_, by norm_num⟩
  simp [uniformContribution, priceLookup]
  norm_num

/-- C1 (amended): for every spec with exactly one populated category, every
non-negative quantity and non-negative price table, the `app.py`
cost-aggregation step is a pure function of its inputs whose `item_total`
equals the sum of `requirement.quantity * quantity * unit_price` over
exactly the populated list's materials with a price-table entry (materials
absent from the table contribute nothing); the `main.py` aggregation
satisfies the same equation whenever the populated category is per-item,
per-meter or per-cubic-meter (its material list omits the per-sqm-at-20mm
category). -/
theorem compute_cost_item_total_spec :
    (∀ (key unit_type : String) (spec : Spec) (q : ℚ)
        (prices : List (String × ℚ)) (L : List MaterialRequirement),
        0 ≤ q → (∀ pr ∈ prices, 0 ≤ pr.2) →
        populatedCategory spec = some L →
        (compute_cost_app key unit_type spec q prices).1 =
          (L.map (uniformContribution q prices)).sum) ∧
    (∀ (spec : Spec) (q : ℚ) (prices : List (String × ℚ))
        (L : List MaterialRequirement),
        0 ≤ q → (∀ pr ∈ prices, 0 ≤ pr.2) →
        populatedCategory spec = some L →
        spec.materials_per_sqm_20mm = none →
        (compute_cost_main spec q prices).1 =
          (L.map (uniformContribution q prices)).sum) := by
  constructor
  · intro key unit_type spec q prices L _ _ hpop
    rw [compute_cost_app_eq, materials_list_of_populated spec L hpop]
    have hfun : lineContribution key unit_type q prices =
        uniformContribution q prices :=
      funext (lineContribution_eq_uniform key unit_type q prices)
    rw [hfun]
  · intro spec q prices L _ _ hpop hsqm
    rw [compute_cost_main_eq]
    have hmm : mainMaterialsList spec = L := by
      unfold populatedCategory at hpop
      unfold mainMaterialsList
      rcases h1 : spec.materials_per_item with _ | l1 <;>
        rcases h2 : spec.materials_per_meter with _ | l2 <;>
          rcases h3 : spec.materials_per_cubic_meter with _ | l3 <;>
            simp_all
    rw [hmm]
    have hfun : mainLineContribution q prices = uniformContribution q prices :=
      funext (fun m => rfl)
    rw [hfun]

/-- C1 (witness): both aggregation equations evaluated on a one-material
per-item spec with quantity 3 and price 5. -/
theorem compute_cost_item_total_spec_witness :
    (0 : ℚ) ≤ 3 ∧ (∀ pr ∈ [("steel", (5 : ℚ))], 0 ≤ pr.2) ∧
    populatedCategory ⟨"IRC 5", some [⟨"steel", 2, "kg"⟩], none, none, none⟩ =
      some [⟨"steel", 2, "kg"⟩] ∧
    (compute_cost_app "guardrail" "item"
        ⟨"IRC 5", some [⟨"steel", 2, "kg"⟩], none, none, none⟩ 3 [("steel", 5)]).1 =
      (([⟨"steel", 2, "kg"⟩] : List MaterialRequirement).map
        (uniformContribution 3 [("steel", 5)])).sum ∧
    (compute_cost_main
        ⟨"IRC 5", some [⟨"steel", 2, "kg"⟩], none, none, none⟩ 3 [("steel", 5)]).1 =
      (([⟨"steel", 2, "kg"⟩] : List MaterialRequirement).map
        (uniformContribution 3 [("steel", 5)])).sum ∧
    (([⟨"steel", 2, "kg"⟩] : List MaterialRequirement).map
        (uniformContribution 3 [("steel", 5)])).sum = 30 := by
  have hpr : ∀ pr ∈ [("steel", (5 : ℚ))], 0 ≤ pr.2 := by
    rintro pr hpr
    rcases List.mem_singleton.1 hpr with rfl
    norm_num
  refine ⟨by norm_num, hpr, rfl, ?_, ?_, ?_⟩
  · exact compute_cost_item_total_spec.1 "guardrail" "item" _ 3 _ _
      (by norm_num) hpr rfl
  · exact compute_cost_item_total_spec.2 _ 3 _ _ (by norm_num) hpr rfl rfl
  · simp [uniformContribution, priceLookup]
    norm_num

/-- C8: a material of the selected list that is absent from the price table
still produces a breakdown line — flagged as price-missing ("PRICE NOT
FOUND") — contributes zero to `item_total`, and the total is still the sum
of every line's contribution (so the priced lines still count); the
aggregation is total, so the run never aborts. -/
theorem missing_price_nonfatal (key unit_type : String) (spec : Spec) (q : ℚ)
    (prices : List (String × ℚ)) (m : MaterialRequirement)
    (hm : m ∈ materials_list spec) (hmiss : priceLookup prices m.name = none) :
    LineItem.missing m.name (line_qty_needed key unit_type q m.quantity)
        ∈ (compute_cost_app key unit_type spec q prices).2 ∧
    (compute_cost_app key unit_type spec q prices).1 =
      ((materials_list spec).map (lineContribution key unit_type q prices)).sum ∧
    lineContribution key unit_type q prices m = 0 := by
  refine ⟨?_, ?_, ?_⟩
  · rw [compute_cost_app_eq]
    apply List.mem_map.2
    refine ⟨m, hm, ?_⟩
    simp [lineOfMaterial, hmiss]
  · rw [compute_cost_app_eq]
  · simp [lineContribution, hmiss]

/-- C8 (witness): a two-material spec where "bolt" has no price: its line is
flagged missing, contributes 0, and the priced "steel" line still counts. -/
theorem missing_price_nonfatal_witness :
    (⟨"bolt", 3, "pc"⟩ : MaterialRequirement) ∈
      materials_list
        ⟨"IRC 9", some [⟨"steel", 2, "kg"⟩, ⟨"bolt", 3, "pc"⟩], none, none, none⟩ ∧
    priceLookup [("steel", (5 : ℚ))] "bolt" = none ∧
    LineItem.missing "bolt" (line_qty_needed "guard" "item" 2 3)
        ∈ (compute_cost_app "guard" "item"
            ⟨"IRC 9", some [⟨"steel", 2, "kg"⟩, ⟨"bolt", 3, "pc"⟩], none, none, none⟩
            2 [("steel", 5)]).2 ∧
    (compute_cost_app "guard" "item"
        ⟨"IRC 9", some [⟨"steel", 2, "kg"⟩, ⟨"bolt", 3, "pc"⟩], none, none, none⟩
        2 [("steel", 5)]).1 =
      (([⟨"steel", 2, "kg"⟩, ⟨"bolt", 3, "pc"⟩] : List MaterialRequirement).map
        (lineContribution "guard" "item" 2 [("steel", 5)])).sum ∧
    (compute_cost_app "guard" "item"
        ⟨"IRC 9", some [⟨"steel", 2, "kg"⟩, ⟨"bolt", 3, "pc"⟩], none, none, none⟩
        2 [("steel", 5)]).1 = 20 := by
  have hm : (⟨"bolt", 3, "pc"⟩ : MaterialRequirement) ∈
      materials_list
        ⟨"IRC 9", some [⟨"steel", 2, "kg"⟩, ⟨"bolt", 3, "pc"⟩], none, none, none⟩ := by
    simp [materials_list]
  have hmiss : priceLookup [("steel", (5 : ℚ))] "bolt" = none := by
    simp [priceLookup]
  have h := missing_price_nonfatal "guard" "item"
    ⟨"IRC 9", some [⟨"steel", 2, "kg"⟩, ⟨"bolt", 3, "pc"⟩], none, none, none⟩
    2 [("steel", 5)] ⟨"bolt", 3, "pc"⟩ hm hmiss
  refine ⟨hm, hmiss, h.1, h.2.1, ?_⟩
  rw [h.2.1]
  simp [lineContribution, priceLookup, line_qty_needed, materials_list]
  norm_num

/-- C5: for a per-meter spec and an intervention key whose lowercase form is
"road studs", the extractor returns unit "item"; when the text contains a
chainage range, quantity = ceil(|end_offset - start_offset| / 9) * 2, and
when no range matches, quantity = 1. -/
theorem road_studs_extraction_spec (key : String) (spec : Spec)
    (text : List Char) (hkey : pyLower key = "road studs")
    (hm : spec.materials_per_meter.isSome) :
    (∀ sk sm ek em : ℕ, searchChainageRange text = some (sk, sm, ek, em) →
        extract_quantity_app key spec text =
          .ok (((⌈(((((ek : ℤ) * 1000 + em) - ((sk : ℤ) * 1000 + sm)).natAbs : ℚ)
                    / 9)⌉ * 2 : ℤ) : ℚ), "item")) ∧
    (searchChainageRange text = none →
        extract_quantity_app key spec text = .ok (1, "item")) := by
  obtain ⟨l, hl⟩ := Option.isSome_iff_exists.1 hm
  constructor
  · intro sk sm ek em hs
    unfold extract_quantity_app
    simp [hl, hkey, hs, studQty]
  · intro hs
    unfold extract_quantity_app
    simp [hl, hkey, hs]

/-- C5 (witness): the theorem applied to text containing "4+100 to 4+200":
length 100, 12 studs per edge, quantity 24, unit "item". -/
theorem road_studs_extraction_spec_witness :
    pyLower "Road Studs" = "road studs" ∧
    (⟨"IRC 35", none, some [⟨"stud", 1, "pc"⟩], none, none⟩ :
        Spec).materials_per_meter.isSome = true ∧
    searchChainageRange ("resurface 4+100 to 4+200 with road studs".toList) =
      some (4, 100, 4, 200) ∧
    extract_quantity_app "Road Studs"
        ⟨"IRC 35", none, some [⟨"stud", 1, "pc"⟩], none, none⟩
        ("resurface 4+100 to 4+200 with road studs".toList) =
      .ok (((⌈((((4 * 1000 + 200 : ℤ) - (4 * 1000 + 100 : ℤ)).natAbs : ℚ)
                / 9)⌉ * 2 : ℤ) : ℚ), "item") ∧
    ((4 * 1000 + 200 : ℤ) - (4 * 1000 + 100 : ℤ)).natAbs = 100 ∧
    (⌈((100 : ℚ) / 9)⌉ : ℤ) = 12 ∧
    ((⌈((((4 * 1000 + 200 : ℤ) - (4 * 1000 + 100 : ℤ)).natAbs : ℚ)
          / 9)⌉ * 2 : ℤ) : ℚ) = 24 := by
  refine ⟨by decide, rfl, by decide, ?_, by decide, ?_, ?_⟩
  · exact (road_studs_extraction_spec "Road Studs"
      ⟨"IRC 35", none, some [⟨"stud", 1, "pc"⟩], none, none⟩
      ("resurface 4+100 to 4+200 with road studs".toList) (by decide) rfl).1
      4 100 4 200 (by decide)
  · norm_num [Int.ceil_eq_iff]
  · have h100 : ((4 * 1000 + 200 : ℤ) - (4 * 1000 + 100 : ℤ)).natAbs = 100 := by decide
    rw [h100]
    have h12 : (⌈((100 : ℚ) / 9)⌉ : ℤ) = 12 := by norm_num [Int.ceil_eq_iff]
    rw [show (((100 : ℕ) : ℚ)) = (100 : ℚ) by norm_num, h12]
    norm_num

/-- C7: under a per-cubic-meter spec with key "pothole" (per-meter and
per-item absent, so the cubic branch is reached), if both the area pattern
and the depth pattern match with well-formed numbers, quantity =
area * (depth / 1000) with unit "m^3"; if either pattern is absent the
quantity stays 0. -/
theorem pothole_cubic_extraction_spec (key : String) (spec : Spec)
    (text : List Char) (hkey : pyLower key = "pothole")
    (h1 : spec.materials_per_meter = none)
    (h2 : spec.materials_per_item = none)
    (h3 : spec.materials_per_cubic_meter.isSome) :
    (∀ (ga gd : List Char) (a d : ℚ),
        searchArea text = some ga → searchDepth text = some gd →
        pyFloat ga = some a → pyFloat gd = some d →
        extract_quantity_app key spec text = .ok (a * (d / 1000), "m^3")) ∧
    ((searchArea text = none ∨ searchDepth text = none) →
        extract_quantity_app key spec text = .ok (0, "m^3")) := by
  obtain ⟨l, hl⟩ := Option.isSome_iff_exists.1 h3
  constructor
  · intro ga gd a d hga hgd hfa hfd
    unfold extract_quantity_app
    simp [h1, h2, hl, hga, hgd, hkey, hfa, hfd]
  · rintro (hga | hgd)
    · unfold extract_quantity_app
      simp [h1, h2, hl, hga]
    · unfold extract_quantity_app
      cases hga : searchArea text with
      | none => simp [h1, h2, hl, hga]
      | some ga => simp [h1, h2, hl, hga, hgd]

/-- C7 (witness): "area 12.5 sqm" and "50 mm depth" under a per-cubic-meter
pothole spec give quantity 12.5 * (50/1000) = 0.625. -/
theorem pothole_cubic_extraction_spec_witness :
    pyLower "Pothole" = "pothole" ∧
    searchArea ("pothole area 12.5 sqm at 50 mm depth".toList) =
      some ("12.5".toList) ∧
    searchDepth ("pothole area 12.5 sqm at 50 mm depth".toList) =
      some ("50".toList) ∧
    pyFloat ("12.5".toList) = some (25 / 2) ∧
    pyFloat ("50".toList) = some 50 ∧
    extract_quantity_app "Pothole"
        ⟨"IRC 82", none, none, some [⟨"cold mix", 1, "t"⟩], none⟩
        ("pothole area 12.5 sqm at 50 mm depth".toList) =
      .ok ((25 / 2 : ℚ) * (50 / 1000), "m^3") ∧
    (25 / 2 : ℚ) * (50 / 1000) = 0.625 := by
  have hfa : pyFloat ("12.5".toList) = some (25 / 2) := by
    have h : pyFloatParts ("12.5".toList) = some (12, 5, 1) := by decide
    simp [pyFloat, pyFloatBody, h]
    exact ⟨12, 5, 1, h, by norm_num⟩
  have hfd : pyFloat ("50".toList) = some 50 := by
    have h : pyFloatParts ("50".toList) = some (50, 0, 0) := by decide
    simp [pyFloat, pyFloatBody, h]
    exact ⟨50, 0, 0, h, by norm_num⟩
  refine ⟨by decide, by decide, by decide, hfa, hfd, ?_, by norm_num⟩
  exact (pothole_cubic_extraction_spec "Pothole"
    ⟨"IRC 82", none, none, some [⟨"cold mix", 1, "t"⟩], none⟩
    ("pothole area 12.5 sqm at 50 mm depth".toList) (by decide) rfl rfl rfl).1
    ("12.5".toList) ("50".toList) (25 / 2) 50 (by decide) (by decide) hfa hfd

/-- C4 (code-bug evaluation): on text containing "area . sqm" together with
a depth pattern, the pothole cubic branch matches the area group "." and
`float('.')` raises an uncaught `ValueError` — the extraction step faults
instead of falling back to the documented default 0. -/
theorem pothole_malformed_numeric_raises :
    searchArea ("pothole area . sqm at 50 mm depth".toList) = some ['.'] ∧
    searchDepth ("pothole area . sqm at 50 mm depth".toList) =
      some ("50".toList) ∧
    pyFloat ['.'] = none ∧
    extract_quantity_app "pothole"
        ⟨"IRC 82", none, none, some [⟨"cold mix", 1, "t"⟩], none⟩
        ("pothole area . sqm at 50 mm depth".toList) = .error () := by
  have hga : searchArea ("pothole area . sqm at 50 mm depth".toList) =
      some ['.'] := by decide
  have hgd : searchDepth ("pothole area . sqm at 50 mm depth".toList) =
      some ("50".toList) := by decide
  have hfa : pyFloat ['.'] = none := by
    have h : pyFloatParts ['.'] = none := by decide
    simp [pyFloat, pyFloatBody, h]
  refine ⟨hga, hgd, hfa, ?_⟩
  have hk : pyLower "pothole" = "pothole" := by decide
  unfold extract_quantity_app
  rw [hga, hgd]
  simp [hfa, hk]

/-- C9 (code-bug evaluation): the `main.py` road-studs adjustment, run on a
per-meter road-studs spec, writes quantity 1 through the shallow copy into
the shared specification-table entry: after the run the shared entry's
per-meter list reads quantity 1 where the loaded table had 2 — the "copy"
mutates the shared table, contradicting the code's own comment
("Use a temporary copy to avoid modifying original spec_database"). -/
theorem main_normalization_mutates_shared_spec :
    mainRoadStudsNormalize roadStudsSpec =
      some (roadStudsSpecLocal, roadStudsSpecShared) ∧
    roadStudsSpecShared ≠ roadStudsSpec ∧
    roadStudsSpecShared.materials_per_meter = some [⟨"stud", 1, "pc"⟩] ∧
    roadStudsSpec.materials_per_meter = some [⟨"stud", 2, "pc"⟩] := by
  refine ⟨rfl, ?_, rfl, rfl⟩
  intro hcontra
  have h2 := congrArg (fun s => s.materials_per_meter) hcontra
  simp [roadStudsSpecShared, roadStudsSpec, MaterialRequirement.mk.injEq] at h2

/-- C6 (counterexample): with a road-studs per-meter requirement of 2 studs
per meter and a chainage range of 18 m (4 studs), the `app.py` pipeline —
which performs no normalization and special-cases road studs inside the
cost loop — produces item_total 80 (= 4 * 2 * 10), while aggregating
against the Extractor-normalized per-item spec as the claim describes gives
40 (= 4 * 1 * 10). -/
theorem app_no_normalization_cex :
    appInterventionRun "road studs" roadStudsSpec
        ("road studs 4+100 to 4+118".toList) [("stud", 10)] =
      .ok (80, [LineItem.priced "stud" 8 10 80]) ∧
    mainRoadStudsNormalize roadStudsSpec =
      some (roadStudsSpecLocal, roadStudsSpecShared) ∧
    (compute_cost_main roadStudsSpecLocal 4 [("stud", 10)]).1 = 40 ∧
    (80 : ℚ) ≠ 40 := by
  have hs : searchChainageRange ("road studs 4+100 to 4+118".toList) =
      some (4, 100, 4, 118) := by decide
  have hkey : pyLower "road studs" = "road studs" := by decide
  have hstud : ((studQty 4 100 4 118 : ℤ) : ℚ) = 4 := by
    unfold studQty
    have h18 : (((4 : ℕ) : ℤ) * 1000 + ((118 : ℕ) : ℤ) -
        (((4 : ℕ) : ℤ) * 1000 + ((100 : ℕ) : ℤ))).natAbs = 18 := by decide
    rw [h18]
    have h2 : (⌈((18 : ℕ) : ℚ) / 9⌉ : ℤ) = 2 := by norm_num [Int.ceil_eq_iff]
    rw [h2]
    norm_num
  have hex : extract_quantity_app "road studs" roadStudsSpec
      ("road studs 4+100 to 4+118".toList) = .ok (4, "item") := by
    unfold extract_quantity_app
    rw [hs]
    simp [roadStudsSpec, hkey, hstud]
  refine ⟨?_, rfl, ?_, by norm_num⟩
  · unfold appInterventionRun
    rw [hex]
    show Except.ok (compute_cost_app "road studs" "item" roadStudsSpec 4
        [("stud", 10)]) = _
    rw [compute_cost_app_eq]
    simp [roadStudsSpec, materials_list, lineContribution, lineOfMaterial,
      priceLookup, line_qty_needed, hkey]
    norm_num
  · rw [compute_cost_main_eq]
    simp [roadStudsSpecLocal, mainMaterialsList, mainLineContribution, priceLookup]
    norm_num

/-- C6 (amended): in `main.py` the road-studs per-meter spec is normalized
to a per-item spec (head requirement quantity set to 1) during the
extraction phase, before the cost loop, and the cost loop then computes
`qty_needed = requirement.quantity * quantity` uniformly against that
normalized list; in `app.py` no such normalization exists — the cost loop's
road-studs special case only swaps the operand order of the same
multiplication, so every `app.py` line uses
`qty_needed = requirement.quantity * quantity` against the **original**
per-meter requirement quantities. -/
theorem road_studs_normalization_spec :
    (∀ (s : Spec) (m : MaterialRequirement) (rest : List MaterialRequirement)
        (loc shr : Spec) (q : ℚ) (prices : List (String × ℚ)),
        s.materials_per_meter = some (m :: rest) →
        s.materials_per_cubic_meter = none →
        mainRoadStudsNormalize s = some (loc, shr) →
        loc.materials_per_item = some ({ m with quantity := 1 } :: rest) ∧
        loc.materials_per_meter = none ∧
        (compute_cost_main loc q prices).1 =
          (({ m with quantity := 1 } :: rest).map
            (uniformContribution q prices)).sum) ∧
    (∀ (key unit_type : String) (q mq : ℚ),
        line_qty_needed key unit_type q mq = mq * q) := by
  constructor
  · intro s m rest loc shr q prices hpm hpc hnorm
    unfold mainRoadStudsNormalize at hnorm
    rw [hpm] at hnorm
    obtain ⟨rfl, rfl⟩ := Prod.mk.inj (Option.some.inj hnorm)
    refine ⟨rfl, rfl, ?_⟩
    rw [compute_cost_main_eq]
    have hml : mainMaterialsList
        { s with materials_per_meter := none,
                 materials_per_item := some ({ m with quantity := 1 } :: rest) } =
        { m with quantity := 1 } :: rest := by
      simp [mainMaterialsList, hpc]
    rw [hml]
    have hfun : mainLineContribution q prices = uniformContribution q prices :=
      funext (fun x => rfl)
    rw [hfun]
  · exact line_qty_needed_eq_mul

/-- C6 (witness): the amended theorem applied to the concrete road-studs
fixture with quantity 4 and a 10-rupee stud price. -/
theorem road_studs_normalization_spec_witness :
    roadStudsSpec.materials_per_meter = some [⟨"stud", 2, "pc"⟩] ∧
    roadStudsSpec.materials_per_cubic_meter = none ∧
    mainRoadStudsNormalize roadStudsSpec =
      some (roadStudsSpecLocal, roadStudsSpecShared) ∧
    (roadStudsSpecLocal.materials_per_item = some [⟨"stud", 1, "pc"⟩] ∧
     roadStudsSpecLocal.materials_per_meter = none ∧
     (compute_cost_main roadStudsSpecLocal 4 [("stud", 10)]).1 =
       (([⟨"stud", 1, "pc"⟩] : List MaterialRequirement).map
         (uniformContribution 4 [("stud", 10)])).sum) ∧
    line_qty_needed "road studs" "item" 4 2 = 2 * 4 := by
  refine ⟨rfl, rfl, rfl, ?_, road_studs_normalization_spec.2 "road studs" "item" 4 2⟩
  exact road_studs_normalization_spec.1 roadStudsSpec ⟨"stud", 2, "pc"⟩ []
    roadStudsSpecLocal roadStudsSpecShared 4 [("stud", 10)] rfl rfl rfl

/-- C2: in `app.py` batch mode, for any database, document text and
non-negative price table (requirement quantities non-negative per the data
model), if the run completes then the grand total equals the sum of the
matched interventions' item totals and also equals the sum of
`material_cost` over the ResultItems the run produced (items are recorded
only when their total is positive; the omitted ones contribute exactly 0). -/
theorem batch_total_spec (db : List (String × Spec)) (text : List Char)
    (prices : List (String × ℚ)) (t : ℚ) (rs : List ResultItem)
    (hpr : ∀ pr ∈ prices, 0 ≤ pr.2)
    (hdb : ∀ e ∈ db, ∀ m ∈ materials_list e.2, 0 ≤ m.quantity)
    (hrun : batchRunApp db text prices = .ok (t, rs)) :
    ∃ l, matchedItemTotals prices text db = .ok l ∧
      t = l.sum ∧ t = (rs.map ResultItem.material_cost).sum := by
  obtain ⟨l, hl, hts, hrs⟩ :=
    batchRunAppFrom_total prices text hpr db hdb 0 t [] rs hrun
  refine ⟨l, hl, by simpa using hts, ?_⟩
  rw [hts]
  simp only [List.map_nil, List.sum_nil] at hrs
  rw [hrs]

/-- C2 (witness): a one-entry database matched by the text "install
guardrail": the run returns total 10 with one ResultItem of material_cost
10, and both equalities of the theorem hold at that instance. -/
theorem batch_total_spec_witness :
    (∀ pr ∈ [("steel", (5 : ℚ))], 0 ≤ pr.2) ∧
    (∀ e ∈ [("guardrail",
        (⟨"IRC 5", some [⟨"steel", 2, "kg"⟩], none, none, none⟩ : Spec))],
      ∀ m ∈ materials_list e.2, 0 ≤ m.quantity) ∧
    batchRunApp
        [("guardrail", ⟨"IRC 5", some [⟨"steel", 2, "kg"⟩], none, none, none⟩)]
        ("install guardrail".toList) [("steel", 5)] =
      .ok (10, [⟨"guardrail", 1, "item", "IRC 5", 10⟩]) ∧
    (∃ l, matchedItemTotals [("steel", 5)] ("install guardrail".toList)
        [("guardrail", ⟨"IRC 5", some [⟨"steel", 2, "kg"⟩], none, none, none⟩)] =
          .ok l ∧
      (10 : ℚ) = l.sum ∧
      (10 : ℚ) = (([⟨"guardrail", 1, "item", "IRC 5", 10⟩] :
          List ResultItem).map ResultItem.material_cost).sum) := by
  have hpr : ∀ pr ∈ [("steel", (5 : ℚ))], 0 ≤ pr.2 := by
    rintro pr hpr
    rcases List.mem_singleton.1 hpr with rfl
    norm_num
  have hdb : ∀ e ∈ [("guardrail",
      (⟨"IRC 5", some [⟨"steel", 2, "kg"⟩], none, none, none⟩ : Spec))],
      ∀ m ∈ materials_list e.2, 0 ≤ m.quantity := by
    rintro e he m hm
    rcases List.mem_singleton.1 he with rfl
    simp [materials_list] at hm
    rw [hm]
    norm_num
  have hsub : isSubstr (pyLower "guardrail").toList
      ("install guardrail".toList) = true := by decide
  have hc : countOccs (pyLower "guardrail").toList
      ("install guardrail".toList) = 1 := by decide
  have hex : extract_quantity_app "guardrail"
      ⟨"IRC 5", some [⟨"steel", 2, "kg"⟩], none, none, none⟩
      ("install guardrail".toList) = .ok (1, "item") := by
    unfold extract_quantity_app
    simp only [hc]
    simp
  have hitot : (compute_cost_app "guardrail" "item"
      ⟨"IRC 5", some [⟨"steel", 2, "kg"⟩], none, none, none⟩
      1 [("steel", 5)]).1 = 10 := by
    rw [compute_cost_app_eq]
    simp [materials_list, lineContribution, priceLookup, line_qty_needed]
    norm_num
  have hstep : batchStepApp [("steel", 5)] ("install guardrail".toList)
      (0, []) ("guardrail", ⟨"IRC 5", some [⟨"steel", 2, "kg"⟩], none, none, none⟩) =
      .ok (10, [⟨"guardrail", 1, "item", "IRC 5", 10⟩]) := by
    unfold batchStepApp
    rw [if_pos hsub, hex]
    simp only [hitot]
    rw [if_pos (by norm_num : (0 : ℚ) < 10)]
    simp
  have hrun : batchRunApp
      [("guardrail", ⟨"IRC 5", some [⟨"steel", 2, "kg"⟩], none, none, none⟩)]
      ("install guardrail".toList) [("steel", 5)] =
      .ok (10, [⟨"guardrail", 1, "item", "IRC 5", 10⟩]) := by
    unfold batchRunApp batchRunAppFrom
    rw [hstep]
    rfl
  exact ⟨hpr, hdb, hrun, batch_total_spec _ _ _ _ _ hpr hdb hrun⟩
